import Mathlib

/-!
# stretcher: manifest resolution and execution engine

A shallow embedding of `stretcher.go`.  The Go functions are Lean functions
that pass an explicit `World` (environment variables, standard input, the
package-level variables `AWSAuth`, `AWSRegion`, `LogBuffer`, the logger's
output wiring) and append to two ghost traces: the log lines emitted and the
collaborator calls made.  Code that lives outside `stretcher.go` (the manifest
decoder, the Consul event parser, the AWS config loader, `Manifest.Deploy`,
`CommandLines.InvokePipe`) and the operating system (`url.Parse`, S3, HTTP,
the file system) are fields of `Ext`, so every theorem holds for all of their
behaviours.

Go byte strings are `String`s, one character standing for one byte.  A Go
`error` is a `GoError`: `none` is `nil`, `some msg` is an error whose
`Error()` text is `msg`.
-/

namespace Stretcher

/-- Go `error` value: `none` is `nil`, `some msg` has `Error() = msg`. -/
abbrev GoError := Option String

/-- An `io.Reader`: the bytes it delivers, then how it ends (`none` is
`io.EOF`, `some e` is a read failure). -/
structure Stream where
  data : String
  err : GoError
  deriving DecidableEq, Repr

/-- The fields of `aws.Auth` the program looks at. -/
structure Auth where
  AccessKey : String
  SecretKey : String
  deriving DecidableEq, Repr

/-- The fields of `aws.Region` the program looks at. -/
structure Region where
  Name : String
  deriving DecidableEq, Repr

/-- The fields of `url.URL` the program looks at; `text` is `u.String()`. -/
structure URL where
  Scheme : String
  Host : String
  Path : String
  text : String
  deriving DecidableEq, Repr

/-- Modelled from the spec: the type `CommandLines` (declared outside
`stretcher.go`), an ordered sequence of invocable steps. -/
structure CommandLines where
  steps : List String
  deriving DecidableEq, Repr

/-- Modelled from the spec: the `Commands` record of a manifest; only the two
hook pipelines `Run` touches are named. -/
structure Commands where
  Success : CommandLines
  Failure : CommandLines
  deriving DecidableEq, Repr

/-- Modelled from the spec: the type `Manifest` (declared outside
`stretcher.go`); `body` stands for the deploy steps, opaque to this file. -/
structure Manifest where
  body : String
  Commands : Commands
  deriving DecidableEq, Repr

/-- Modelled from the spec: the type `ConsulEvent` (declared outside
`stretcher.go`); each record exposes a string payload. -/
structure ConsulEvent where
  Payload : String
  deriving DecidableEq, Repr

/-- Modelled from the spec: `(*ConsulEvent).PayloadString`, the record's
string payload. -/
def ConsulEvent.PayloadString (ev : ConsulEvent) : String := ev.Payload

/-- Which hook pipeline of `m.Commands` an `InvokePipe` call was made on. -/
inductive Hook where
  | Success
  | Failure
  deriving DecidableEq, Repr

/-- One entry of the call trace: a backend of `getURL` being entered, or a
call that leaves `stretcher.go`. -/
inductive Call where
  | LoadAWSConfigFile (file profile : String)
  | stdinScan
  | ParseConsulEvents
  | getS3 (u : URL)
  | getHTTP (u : URL)
  | getFile (u : URL)
  | s3New
  | s3GetReader (bucket key : String)
  | httpGet (url : String)
  | osOpen (path : String)
  | ParseManifest (data : String)
  | Deploy (m : Manifest)
  | InvokePipe (hook : Hook) (input : String)
  deriving DecidableEq, Repr

/-- What `LoadAWSConfigFile` leaves behind: its error, the package variables
it sets, and the messages it logs. -/
structure ConfigOutcome where
  err : GoError
  auth : Auth
  region : Region
  logs : List String

/-- What `ParseConsulEvents` returns: `(ev, err)` as in Go, `ev = none` being
the nil event, and the messages it logs. -/
structure EventsOutcome where
  ev : Option ConsulEvent
  err : GoError
  logs : List String

/-- What `ParseManifest` returns, and the messages it logs. -/
structure ManifestOutcome where
  result : Except String Manifest
  logs : List String

/-- What `m.Deploy()` returns, and the messages it logs. -/
structure DeployOutcome where
  err : GoError
  logs : List String

/-- What `InvokePipe` does: its (ignored) error, what it leaves unread in the
buffer it was handed, and the messages it logs. -/
structure PipeOutcome where
  err : GoError
  rest : String
  logs : List String

/-- Everything `stretcher.go` calls but does not define. -/
structure Ext where
  AWSDefaultProfileName : String
  LoadAWSConfigFile : String → String → Auth → Region → ConfigOutcome
  ParseConsulEvents : Stream → EventsOutcome
  ParseManifest : String → ManifestOutcome
  Deploy : Manifest → DeployOutcome
  InvokePipe : CommandLines → String → PipeOutcome
  goSyntax : Manifest → String
  urlParse : String → Except String URL
  s3GetReader : Auth → Region → String → String → Except String Stream
  httpGet : String → Except String Stream
  osOpen : String → Except String Stream

/-- The process state `stretcher.go` reads and writes.  `logToBuffer` is the
logger's output: `false` is Go's default (standard error only), `true` is
`io.MultiWriter(os.Stderr, &LogBuffer)`.  Writes to standard error succeed.
`clock n` is the header the logger puts before the `n`-th line it emits.
`emitted` and `calls` are ghost traces. -/
structure World where
  env : String → String
  stdin : Stream
  clock : Nat → String
  AWSAuth : Auth
  AWSRegion : Region
  LogBuffer : String
  logToBuffer : Bool
  stderr : String
  emitted : List String
  calls : List Call

/-- Append one entry to the call trace. -/
def World.record (w : World) (c : Call) : World :=
  { w with calls := w.calls ++ [c] }

/-- Go `log.Output`: header, the text, a newline unless the text already ends
in one; written to the logger's output. -/
def logOutput (s : String) (w : World) : World :=
  let line := w.clock w.emitted.length ++ s ++
    (if s.data.getLast? = some '\n' then "" else "\n")
  { w with
    stderr := w.stderr ++ line
    LogBuffer := if w.logToBuffer then w.LogBuffer ++ line else w.LogBuffer
    emitted := w.emitted ++ [line] }

/-- Go `fmt.Sprintln`: operands separated by spaces, then a newline. -/
def Sprintln (args : List String) : String :=
  " ".intercalate args ++ "\n"

/-- Go `log.Println`. -/
def logPrintln (args : List String) (w : World) : World :=
  logOutput (Sprintln args) w

/-- Go `log.Printf`, applied to the already formatted text. -/
def logPrintf (s : String) (w : World) : World :=
  logOutput s w

/-- The log messages of a collaborator, emitted in order. -/
def logAll (msgs : List String) (w : World) : World :=
  msgs.foldl (fun acc s => logOutput s acc) w

/-- `Init`: route the logger to standard error and `LogBuffer`. -/
def Init (w : World) : World :=
  { w with logToBuffer := true }

/-- `bufio.MaxScanTokenSize`. -/
def MaxScanTokenSize : Nat := 64 * 1024

/-- `bufio.dropCR`: drop one trailing carriage return. -/
def dropCR (l : List Char) : List Char :=
  if l.getLast? = some '\r' then l.dropLast else l

/-- Outcome of one `Scan()`: its boolean, then `Text()` and `Err()`. -/
structure ScanResult where
  ok : Bool
  text : String
  err : GoError
  deriving DecidableEq, Repr

/-- The first `Scan()` of `bufio.NewScanner(r)` (split function `ScanLines`,
buffer capped at `MaxScanTokenSize`).  A newline inside the buffer ends the
token; a full buffer without one is `ErrTooLong`; otherwise the reader has
ended, and what is left (if anything) is the final token, while `Err()`
reports a read failure but not `io.EOF`. -/
def scanLine (r : Stream) : ScanResult :=
  let buf := r.data.data.take MaxScanTokenSize
  if '\n' ∈ buf then
    ⟨true, String.mk (dropCR (buf.takeWhile (fun c => c != '\n'))), none⟩
  else if MaxScanTokenSize ≤ r.data.data.length then
    ⟨false, "", some "bufio.Scanner: token too long"⟩
  else if r.data.data = [] then
    ⟨false, "", r.err⟩
  else
    ⟨true, String.mk (dropCR r.data.data), none⟩

/-- `getS3`. -/
def getS3 (ext : Ext) (u : URL) (w : World) : Except String Stream × World :=
  let w := w.record (Call.getS3 u)
  if w.AWSAuth.AccessKey = "" ∨ w.AWSRegion.Name = "" then
    (Except.error "Invalid AWS Auth or Region. Please check env AWS_CONFIG_FILE.", w)
  else
    let w := w.record Call.s3New
    let w := w.record (Call.s3GetReader u.Host u.Path)
    match ext.s3GetReader w.AWSAuth w.AWSRegion u.Host u.Path with
    | Except.error err => (Except.error err, w)
    | Except.ok rc => (Except.ok rc, w)

/-- `getFile`. -/
def getFile (ext : Ext) (u : URL) (w : World) : Except String Stream × World :=
  let w := w.record (Call.getFile u)
  let w := w.record (Call.osOpen u.Path)
  match ext.osOpen u.Path with
  | Except.error err => (Except.error err, w)
  | Except.ok file => (Except.ok file, w)

/-- `getHTTP`. -/
def getHTTP (ext : Ext) (u : URL) (w : World) : Except String Stream × World :=
  let w := w.record (Call.getHTTP u)
  let w := w.record (Call.httpGet u.text)
  match ext.httpGet u.text with
  | Except.error err => (Except.error err, w)
  | Except.ok body => (Except.ok body, w)

/-- `getURL`. -/
def getURL (ext : Ext) (urlStr : String) (w : World) : Except String Stream × World :=
  let w := logPrintln ["loading URL", urlStr] w
  match ext.urlParse urlStr with
  | Except.error err => (Except.error err, w)
  | Except.ok u =>
    if u.Scheme = "s3" then getS3 ext u w
    else if u.Scheme = "http" ∨ u.Scheme = "https" then getHTTP ext u w
    else if u.Scheme = "file" then getFile ext u w
    else
      (Except.error ("manifest URL scheme must be s3 or http(s) or file: " ++ urlStr), w)

/-- `getManifest`.  `ioutil.ReadAll(rc)` returns `(rc.data, rc.err)`; the
source binds the second component to `_`. -/
def getManifest (ext : Ext) (manifestURL : String) (w : World) :
    Except String Manifest × World :=
  match getURL ext manifestURL w with
  | (Except.error err, w) => (Except.error err, w)
  | (Except.ok rc, w) =>
    let data := rc.data
    let w := w.record (Call.ParseManifest data)
    let w := logAll (ext.ParseManifest data).logs w
    ((ext.ParseManifest data).result, w)

/-- `parseEvents`, returning Go's `(string, error)` pair. -/
def parseEvents (ext : Ext) (w : World) : (String × GoError) × World :=
  let w := logPrintln ["Waiting for events from STDIN..."] w
  if w.env "SERF_USER_EVENT" ≠ "" then
    let w := logPrintln ["Reading Serf user event:", w.env "SERF_USER_EVENT"] w
    let w := w.record Call.stdinScan
    let sc := scanLine w.stdin
    if sc.ok then ((sc.text, none), w)
    else (("", sc.err), w)
  else
    let w := logPrintln ["Reading Consul event"] w
    let w := w.record Call.ParseConsulEvents
    let out := ext.ParseConsulEvents w.stdin
    let w := logAll out.logs w
    match out.err with
    | some err => (("", some err), w)
    | none =>
      match out.ev with
      | none => (("", some "No Consul events found"), w)
      | some ev => ((ev.PayloadString, none), w)

/-- Lines 29 to 40 of `Run`: the start-up line and the AWS configuration. -/
def Run.config (ext : Ext) (w : World) : GoError × World :=
  let w := logPrintln ["Starting up stretcher agent"] w
  let profile :=
    if w.env "AWS_DEFAULT_PROFILE" = "" then ext.AWSDefaultProfileName
    else w.env "AWS_DEFAULT_PROFILE"
  if w.env "AWS_CONFIG_FILE" ≠ "" then
    let file := w.env "AWS_CONFIG_FILE"
    let w := w.record (Call.LoadAWSConfigFile file profile)
    let out := ext.LoadAWSConfigFile file profile w.AWSAuth w.AWSRegion
    let w := logAll out.logs { w with AWSAuth := out.auth, AWSRegion := out.region }
    match out.err with
    | some err => (some ("Load AWS_CONFIG_FILE failed: " ++ err), w)
    | none => (none, w)
  else (none, w)

/-- Lines 29 to 52 of `Run`: everything up to and including the
`Executing manifest` line; `Except.error e` is the error `Run` returns. -/
def Run.load (ext : Ext) (w : World) : Except String Manifest × World :=
  match Run.config ext w with
  | (some err, w) => (Except.error err, w)
  | (none, w) =>
    match parseEvents ext w with
    | ((_, some err), w) => (Except.error ("Could not parse event: " ++ err), w)
    | ((payload, none), w) =>
      let w := logPrintln ["Loading manifest:", payload] w
      match getManifest ext payload w with
      | (Except.error err, w) => (Except.error ("Load manifest failed: " ++ err), w)
      | (Except.ok m, w) => (Except.ok m, logPrintf ("Executing manifest " ++ ext.goSyntax m) w)

/-- One `InvokePipe(&LogBuffer)` call on a hook pipeline: the pipeline is
handed the buffer's current content; its return value is dropped. -/
def invokeHook (ext : Ext) (hook : Hook) (cmds : CommandLines) (w : World) : World :=
  let input := w.LogBuffer
  let w := w.record (Call.InvokePipe hook input)
  let out := ext.InvokePipe cmds input
  logAll out.logs { w with LogBuffer := out.rest }

/-- Lines 54 to 62 of `Run`: deploy, then one of the two hooks. -/
def Run.deploy (ext : Ext) (m : Manifest) (w : World) : GoError × World :=
  let w := w.record (Call.Deploy m)
  let out := ext.Deploy m
  let w := logAll out.logs w
  match out.err with
  | some err =>
    let w := logPrintln ["Deploy manifest failed:", err] w
    let w := invokeHook ext Hook.Failure m.Commands.Failure w
    (some ("Deploy manifest failed: " ++ err), w)
  | none =>
    let w := logPrintln ["Deploy manifest succeeded."] w
    let w := invokeHook ext Hook.Success m.Commands.Success w
    (none, w)

/-- `Run`. -/
def Run (ext : Ext) (w : World) : GoError × World :=
  match Run.load ext w with
  | (Except.error err, w) => (some err, w)
  | (Except.ok m, w) => Run.deploy ext m w

/-- The calls made between world `w` and the later world `w1`. -/
def callsSince (w w1 : World) : List Call :=
  w1.calls.drop w.calls.length

/-- Trace entries that mark a backend of `getURL` being entered. -/
def Call.isBackend : Call → Bool
  | Call.getS3 _ => true
  | Call.getHTTP _ => true
  | Call.getFile _ => true
  | _ => false

/-- Trace entries that reach S3, an HTTP server or the file system. -/
def Call.isFetchIO : Call → Bool
  | Call.s3New => true
  | Call.s3GetReader _ _ => true
  | Call.httpGet _ => true
  | Call.osOpen _ => true
  | _ => false

/-- Trace entries that are an `InvokePipe` on the given hook pipeline. -/
def Call.isPipe (hook : Hook) : Call → Bool
  | Call.InvokePipe h _ => decide (h = hook)
  | _ => false

/-- Text containment: `pat` occurs in `s` as a contiguous run of bytes. -/
def containsText (s pat : String) : Prop :=
  pat.data <:+: s.data

instance (s pat : String) : Decidable (containsText s pat) := by
  unfold containsText
  infer_instance

/-- A small URL parser for concrete runs, for locations written
`scheme://host/path` with a lower-case scheme; a string without a colon is a
path with the empty scheme. -/
def sampleParse (s : String) : Except String URL :=
  let scheme := s.data.takeWhile (fun c => c != ':')
  let rest := (s.data.drop (scheme.length + 3))
  if scheme.length = s.data.length then
    Except.ok { Scheme := "", Host := "", Path := s, text := s }
  else
    Except.ok
      { Scheme := String.mk scheme
        Host := String.mk (rest.takeWhile (fun c => c != '/'))
        Path := String.mk (rest.dropWhile (fun c => c != '/'))
        text := s }

/-- Sample collaborators for concrete runs: a decoder that accepts every
document, a deploy that fails exactly on the body `"bad"`, an event parser
that finds an event exactly when its input is not empty, and stores that hold
one document each. -/
def sampleExt : Ext where
  AWSDefaultProfileName := "default"
  LoadAWSConfigFile := fun _ _ _ _ => ⟨none, ⟨"AKIA", "secret"⟩, ⟨"us-east-1"⟩, []⟩
  ParseConsulEvents := fun r =>
    if r.data = "" then ⟨none, none, []⟩ else ⟨some ⟨r.data⟩, none, []⟩
  ParseManifest := fun data => ⟨Except.ok ⟨data, ⟨⟨["ok"]⟩, ⟨["ng"]⟩⟩⟩, []⟩
  Deploy := fun m =>
    if m.body = "bad" then ⟨some "exit status 1", ["deploying"]⟩ else ⟨none, ["deploying"]⟩
  InvokePipe := fun _ _ => ⟨some "pipe failed", "", []⟩
  goSyntax := fun m => m.body
  urlParse := sampleParse
  s3GetReader := fun _ _ _ _ => Except.ok ⟨"good", none⟩
  httpGet := fun _ => Except.ok ⟨"good", none⟩
  osOpen := fun path =>
    if path = "/tmp" then Except.ok ⟨"", some "read /tmp: is a directory"⟩
    else Except.ok ⟨"bad", none⟩

/-- A sample process at start-up: nothing logged, no credentials, the given
environment and standard input. -/
def sampleWorld (env : String → String) (stdin : Stream) : World where
  env := env
  stdin := stdin
  clock := fun _ => "2015/01/01 00:00:00 "
  AWSAuth := ⟨"", ""⟩
  AWSRegion := ⟨""⟩
  LogBuffer := ""
  logToBuffer := false
  stderr := ""
  emitted := []
  calls := []

/-- Environment of a Serf user event handler. -/
def serfEnv : String → String :=
  fun k => if k = "SERF_USER_EVENT" then "deploy" else ""

/-- Environment of a Consul watch handler: nothing set. -/
def consulEnv : String → String :=
  fun _ => ""

/-- The exact concatenation of log lines, in order. -/
def concatLines (lines : List String) : String :=
  lines.foldr (fun l acc => l ++ acc) ""

/-- World `w1` is reached from `w` by steps that invoke no hook pipeline and
treat the log as append-only: the call trace grows by calls that are not
`InvokePipe`, the emitted lines grow by `ls`, and if the logger writes to
`LogBuffer` it still does and the buffer has grown by exactly `ls`. -/
def Step (w w1 : World) : Prop :=
  (∃ xs, w1.calls = w.calls ++ xs ∧ ∀ c ∈ xs, ∀ h, Call.isPipe h c = false)
    ∧ w1.clock = w.clock
    ∧ ∃ ls, w1.emitted = w.emitted ++ ls
        ∧ (w.logToBuffer = true →
            w1.logToBuffer = true ∧ w1.LogBuffer = w.LogBuffer ++ concatLines ls)

/-! ## Facts about the trace and the logger -/

theorem callsSince_append (w w1 : World) (xs : List Call) (h : w1.calls = w.calls ++ xs) :
    callsSince w w1 = xs := by
  simp [callsSince, h]

theorem logOutput_calls (s : String) (w : World) : (logOutput s w).calls = w.calls := rfl

theorem logPrintln_calls (args : List String) (w : World) :
    (logPrintln args w).calls = w.calls := rfl

theorem logAll_calls (msgs : List String) (w : World) : (logAll msgs w).calls = w.calls := by
  induction msgs generalizing w with
  | nil => rfl
  | cons s rest ih =>
    show (logAll rest (logOutput s w)).calls = w.calls
    rw [ih, logOutput_calls]

/-! ## The content fetcher -/

/-- C7: when the access key or the region name is empty, `getS3` returns the
error "Invalid AWS Auth or Region. Please check env AWS_CONFIG_FILE." and the
only trace entry it adds is its own entry mark: no S3 client is created, no
object read is attempted, nothing reaches the network. -/
theorem getS3_invalid_config_no_network (ext : Ext) (u : URL) (w : World)
    (h : w.AWSAuth.AccessKey = "" ∨ w.AWSRegion.Name = "") :
    (getS3 ext u w).1
        = Except.error "Invalid AWS Auth or Region. Please check env AWS_CONFIG_FILE."
      ∧ callsSince w (getS3 ext u w).2 = [Call.getS3 u]
      ∧ ∀ c ∈ callsSince w (getS3 ext u w).2, c.isFetchIO = false := by
  have hc : (w.record (Call.getS3 u)).AWSAuth.AccessKey = ""
      ∨ (w.record (Call.getS3 u)).AWSRegion.Name = "" := h
  have e : getS3 ext u w
      = (Except.error "Invalid AWS Auth or Region. Please check env AWS_CONFIG_FILE.",
          w.record (Call.getS3 u)) := by
    unfold getS3
    simp only [hc, if_true]
  rw [e]
  have hs : callsSince w (w.record (Call.getS3 u)) = [Call.getS3 u] :=
    callsSince_append _ _ _ rfl
  refine ⟨rfl, hs, ?_⟩
  intro c hcm
  rw [hs] at hcm
  simp at hcm
  subst hcm
  rfl

theorem getS3_invalid_config_no_network_witness :
    (getS3 sampleExt ⟨"s3", "bucket", "/key", "s3://bucket/key"⟩
        (sampleWorld consulEnv ⟨"", none⟩)).1
        = Except.error "Invalid AWS Auth or Region. Please check env AWS_CONFIG_FILE."
      ∧ callsSince (sampleWorld consulEnv ⟨"", none⟩)
          (getS3 sampleExt ⟨"s3", "bucket", "/key", "s3://bucket/key"⟩
            (sampleWorld consulEnv ⟨"", none⟩)).2
          = [Call.getS3 ⟨"s3", "bucket", "/key", "s3://bucket/key"⟩]
      ∧ ∀ c ∈ callsSince (sampleWorld consulEnv ⟨"", none⟩)
          (getS3 sampleExt ⟨"s3", "bucket", "/key", "s3://bucket/key"⟩
            (sampleWorld consulEnv ⟨"", none⟩)).2, c.isFetchIO = false :=
  getS3_invalid_config_no_network sampleExt _ (sampleWorld consulEnv ⟨"", none⟩)
    (Or.inl rfl)

theorem getS3_backend_calls (ext : Ext) (u : URL) (w : World) :
    (callsSince w (getS3 ext u w).2).filter Call.isBackend = [Call.getS3 u] := by
  unfold getS3
  by_cases h : (w.record (Call.getS3 u)).AWSAuth.AccessKey = ""
      ∨ (w.record (Call.getS3 u)).AWSRegion.Name = ""
  · simp only [h, if_true]
    rw [callsSince_append w _ [Call.getS3 u] rfl]
    rfl
  · simp only [h, if_false]
    have hs : ∀ r : Except String Stream,
        callsSince w (match r with
          | Except.error err => ((Except.error err : Except String Stream),
              ((w.record (Call.getS3 u)).record Call.s3New).record
                (Call.s3GetReader u.Host u.Path))
          | Except.ok rc => (Except.ok rc,
              ((w.record (Call.getS3 u)).record Call.s3New).record
                (Call.s3GetReader u.Host u.Path))).2
          = [Call.getS3 u, Call.s3New, Call.s3GetReader u.Host u.Path] := by
      intro r
      cases r <;> exact callsSince_append _ _ _ (by simp [World.record])
    rw [hs]
    rfl

theorem getHTTP_backend_calls (ext : Ext) (u : URL) (w : World) :
    (callsSince w (getHTTP ext u w).2).filter Call.isBackend = [Call.getHTTP u] := by
  unfold getHTTP
  have hs : callsSince w (match ext.httpGet u.text with
        | Except.error err => ((Except.error err : Except String Stream),
            (w.record (Call.getHTTP u)).record (Call.httpGet u.text))
        | Except.ok body => (Except.ok body,
            (w.record (Call.getHTTP u)).record (Call.httpGet u.text))).2
        = [Call.getHTTP u, Call.httpGet u.text] := by
    cases ext.httpGet u.text <;> exact callsSince_append _ _ _ (by simp [World.record])
  rw [hs]
  rfl

theorem getFile_backend_calls (ext : Ext) (u : URL) (w : World) :
    (callsSince w (getFile ext u w).2).filter Call.isBackend = [Call.getFile u] := by
  unfold getFile
  have hs : callsSince w (match ext.osOpen u.Path with
        | Except.error err => ((Except.error err : Except String Stream),
            (w.record (Call.getFile u)).record (Call.osOpen u.Path))
        | Except.ok file => (Except.ok file,
            (w.record (Call.getFile u)).record (Call.osOpen u.Path))).2
        = [Call.getFile u, Call.osOpen u.Path] := by
    cases ext.osOpen u.Path <;> exact callsSince_append _ _ _ (by simp [World.record])
  rw [hs]
  rfl

theorem callsSince_logPrintln (args : List String) (w w1 : World) :
    callsSince w w1 = callsSince (logPrintln args w) w1 := rfl

/-- C6: when the location parses to a URL whose scheme is none of `s3`,
`http`, `https`, `file`, `getURL` returns the error
"manifest URL scheme must be s3 or http(s) or file: " followed by the location
string (so the message names it), and adds nothing to the call trace: no
backend is entered and no fetch is attempted. -/
theorem getURL_unknown_scheme (ext : Ext) (urlStr : String) (u : URL) (w : World)
    (hp : ext.urlParse urlStr = Except.ok u)
    (h1 : u.Scheme ≠ "s3") (h2 : u.Scheme ≠ "http") (h3 : u.Scheme ≠ "https")
    (h4 : u.Scheme ≠ "file") :
    (getURL ext urlStr w).1
        = Except.error ("manifest URL scheme must be s3 or http(s) or file: " ++ urlStr)
      ∧ containsText ("manifest URL scheme must be s3 or http(s) or file: " ++ urlStr) urlStr
      ∧ callsSince w (getURL ext urlStr w).2 = [] := by
  have e : getURL ext urlStr w
      = (Except.error ("manifest URL scheme must be s3 or http(s) or file: " ++ urlStr),
          logPrintln ["loading URL", urlStr] w) := by
    unfold getURL
    simp only [hp, h1, h2, h3, h4, or_self, if_false]
  rw [e]
  refine ⟨rfl, ?_, ?_⟩
  · show urlStr.data <:+: ("manifest URL scheme must be s3 or http(s) or file: " ++ urlStr).data
    rw [String.data_append]
    exact (List.suffix_append _ _).isInfix
  · exact callsSince_append _ _ [] (by simp [logPrintln_calls])

theorem getURL_unknown_scheme_witness :
    (getURL sampleExt "ftp://host/x" (sampleWorld consulEnv ⟨"", none⟩)).1
        = Except.error ("manifest URL scheme must be s3 or http(s) or file: " ++ "ftp://host/x")
      ∧ containsText ("manifest URL scheme must be s3 or http(s) or file: " ++ "ftp://host/x")
          "ftp://host/x"
      ∧ callsSince (sampleWorld consulEnv ⟨"", none⟩)
          (getURL sampleExt "ftp://host/x" (sampleWorld consulEnv ⟨"", none⟩)).2 = [] :=
  getURL_unknown_scheme sampleExt "ftp://host/x" ⟨"ftp", "host", "/x", "ftp://host/x"⟩
    (sampleWorld consulEnv ⟨"", none⟩) rfl (by decide) (by decide) (by decide)
    (by decide)

/-- C10: when the location parses to a URL `u`, `getURL` on scheme `s3` is
exactly `getS3 u`, on `http` and `https` exactly `getHTTP u`, on `file` exactly
`getFile u` (result and final state, run after the "loading URL" line), and in
each case the calls it makes enter exactly one backend, the matching one: a
failing backend is not followed by another. -/
theorem getURL_dispatch (ext : Ext) (urlStr : String) (u : URL) (w : World)
    (hp : ext.urlParse urlStr = Except.ok u) :
    (u.Scheme = "s3" →
        getURL ext urlStr w = getS3 ext u (logPrintln ["loading URL", urlStr] w)
        ∧ (callsSince w (getURL ext urlStr w).2).filter Call.isBackend = [Call.getS3 u])
      ∧ (u.Scheme = "http" ∨ u.Scheme = "https" →
        getURL ext urlStr w = getHTTP ext u (logPrintln ["loading URL", urlStr] w)
        ∧ (callsSince w (getURL ext urlStr w).2).filter Call.isBackend = [Call.getHTTP u])
      ∧ (u.Scheme = "file" →
        getURL ext urlStr w = getFile ext u (logPrintln ["loading URL", urlStr] w)
        ∧ (callsSince w (getURL ext urlStr w).2).filter Call.isBackend = [Call.getFile u]) := by
  refine ⟨?_, ?_, ?_⟩
  · intro hs
    have e : getURL ext urlStr w = getS3 ext u (logPrintln ["loading URL", urlStr] w) := by
      unfold getURL
      simp only [hp, hs, if_true]
    refine ⟨e, ?_⟩
    rw [e, callsSince_logPrintln ["loading URL", urlStr] w]
    exact getS3_backend_calls ext u _
  · intro hs
    have hne : u.Scheme ≠ "s3" := by
      rcases hs with hs | hs <;> rw [hs] <;> decide
    have e : getURL ext urlStr w = getHTTP ext u (logPrintln ["loading URL", urlStr] w) := by
      unfold getURL
      simp only [hp, hne, hs, if_true, if_false]
    refine ⟨e, ?_⟩
    rw [e, callsSince_logPrintln ["loading URL", urlStr] w]
    exact getHTTP_backend_calls ext u _
  · intro hs
    have hne : u.Scheme ≠ "s3" := by rw [hs]; decide
    have hnh : ¬ (u.Scheme = "http" ∨ u.Scheme = "https") := by rw [hs]; decide
    have e : getURL ext urlStr w = getFile ext u (logPrintln ["loading URL", urlStr] w) := by
      unfold getURL
      simp only [hp]
      rw [if_neg hne, if_neg hnh, if_pos hs]
    refine ⟨e, ?_⟩
    rw [e, callsSince_logPrintln ["loading URL", urlStr] w]
    exact getFile_backend_calls ext u _

theorem getURL_dispatch_witness :
    getURL sampleExt "file:///tmp" (sampleWorld consulEnv ⟨"", none⟩)
        = getFile sampleExt ⟨"file", "", "/tmp", "file:///tmp"⟩
            (logPrintln ["loading URL", "file:///tmp"] (sampleWorld consulEnv ⟨"", none⟩))
      ∧ (callsSince (sampleWorld consulEnv ⟨"", none⟩)
          (getURL sampleExt "file:///tmp" (sampleWorld consulEnv ⟨"", none⟩)).2).filter
            Call.isBackend = [Call.getFile ⟨"file", "", "/tmp", "file:///tmp"⟩] :=
  (getURL_dispatch sampleExt "file:///tmp" ⟨"file", "", "/tmp", "file:///tmp"⟩
    (sampleWorld consulEnv ⟨"", none⟩) rfl).2.2 rfl

/-! ## The event extractor -/

theorem parseEvents_serf (ext : Ext) (w : World) (hm : w.env "SERF_USER_EVENT" ≠ "") :
    parseEvents ext w
      = (if (scanLine w.stdin).ok then ((scanLine w.stdin).text, none)
          else ("", (scanLine w.stdin).err),
        (logPrintln ["Reading Serf user event:", w.env "SERF_USER_EVENT"]
          (logPrintln ["Waiting for events from STDIN..."] w)).record Call.stdinScan) := by
  have hm1 : (logPrintln ["Waiting for events from STDIN..."] w).env "SERF_USER_EVENT" ≠ "" := hm
  unfold parseEvents
  simp only [if_pos hm1]
  by_cases hok : (scanLine w.stdin).ok = true
  · rw [if_pos hok]
    exact if_pos hok
  · rw [if_neg hok]
    exact if_neg hok

theorem scanLine_empty (r : Stream) (h : r.data = "") :
    scanLine r = ⟨false, "", r.err⟩ := by
  unfold scanLine
  rw [h]
  rfl

/-- C3: in Mode A, on a standard input that is closed before any byte
arrives, `parseEvents` returns the pair `("", nil)`: an empty payload and no
error, where the claim requires an error. -/
theorem parseEvents_serf_eof_returns_nil_error (ext : Ext) (w : World)
    (hm : w.env "SERF_USER_EVENT" ≠ "") (h : w.stdin = ⟨"", none⟩) :
    (parseEvents ext w).1 = ("", none) := by
  rw [parseEvents_serf ext w hm, scanLine_empty w.stdin (by rw [h]), h]
  rfl

theorem parseEvents_serf_eof_returns_nil_error_witness :
    (parseEvents sampleExt (sampleWorld serfEnv ⟨"", none⟩)).1 = ("", none) :=
  parseEvents_serf_eof_returns_nil_error sampleExt (sampleWorld serfEnv ⟨"", none⟩)
    (by decide) rfl

/-- C5 as stated fails: in Mode B, with a parser that returns the nil event
and no error, the error `parseEvents` returns has no message that contains the
text "no events". -/
theorem parseEvents_consul_message_counterexample :
    (sampleExt.ParseConsulEvents (sampleWorld consulEnv ⟨"", none⟩).stdin).ev = none
      ∧ (sampleExt.ParseConsulEvents (sampleWorld consulEnv ⟨"", none⟩).stdin).err = none
      ∧ ¬ ∃ msg, (parseEvents sampleExt (sampleWorld consulEnv ⟨"", none⟩)).1.2 = some msg
          ∧ containsText msg "no events" := by
  refine ⟨rfl, rfl, ?_⟩
  rintro ⟨msg, hmsg, hc⟩
  have e : (parseEvents sampleExt (sampleWorld consulEnv ⟨"", none⟩)).1.2
      = some "No Consul events found" := rfl
  rw [e] at hmsg
  cases hmsg
  revert hc
  decide

/-- C5, amended: in Mode B, when the parser returns the nil event and no
error, `parseEvents` returns the empty payload and the error
"No Consul events found"; when the parser fails, `parseEvents` returns the
empty payload and the parser's own error. -/
theorem parseEvents_consul_errors (ext : Ext) (w : World)
    (hm : w.env "SERF_USER_EVENT" = "") :
    ((ext.ParseConsulEvents w.stdin).err = none → (ext.ParseConsulEvents w.stdin).ev = none →
        (parseEvents ext w).1 = ("", some "No Consul events found"))
      ∧ (∀ e, (ext.ParseConsulEvents w.stdin).err = some e →
        (parseEvents ext w).1 = ("", some e)) := by
  have hm1 : ¬ (logPrintln ["Waiting for events from STDIN..."] w).env "SERF_USER_EVENT" ≠ "" :=
    fun hne => hne hm
  have hst : ((logPrintln ["Reading Consul event"]
      (logPrintln ["Waiting for events from STDIN..."] w)).record Call.ParseConsulEvents).stdin
      = w.stdin := rfl
  constructor
  · intro herr hev
    unfold parseEvents
    simp only [if_neg hm1, hst, herr, hev]
  · intro e herr
    unfold parseEvents
    simp only [if_neg hm1, hst, herr]

theorem parseEvents_consul_errors_witness :
    (parseEvents sampleExt (sampleWorld consulEnv ⟨"", none⟩)).1
      = ("", some "No Consul events found") :=
  (parseEvents_consul_errors sampleExt (sampleWorld consulEnv ⟨"", none⟩) rfl).1 rfl rfl

theorem takeWhile_upto_newline (line tail : List Char) (h : '\n' ∉ line) :
    (line ++ '\n' :: tail).takeWhile (fun c => c != '\n') = line := by
  induction line with
  | nil => simp [List.takeWhile]
  | cons c cs ih =>
    have hc : c ≠ '\n' := fun e => h (by simp [e])
    have hcs : '\n' ∉ cs := fun m => h (List.mem_cons_of_mem _ m)
    have hb : (c != '\n') = true := by simp [hc]
    show List.takeWhile (fun c => c != '\n') (c :: (cs ++ '\n' :: tail)) = c :: cs
    rw [List.takeWhile_cons, hb, ih hcs]
    rfl

theorem scanLine_too_long (r : Stream) (h1 : '\n' ∉ r.data.data.take MaxScanTokenSize)
    (h2 : MaxScanTokenSize ≤ r.data.data.length) :
    scanLine r = ⟨false, "", some "bufio.Scanner: token too long"⟩ := by
  unfold scanLine
  simp only [if_neg h1, if_pos h2]

theorem scanLine_terminated (r : Stream) (line rest : List Char) (hnl : '\n' ∉ line)
    (hlen : line.length < MaxScanTokenSize) (hd : r.data.data = line ++ '\n' :: rest) :
    scanLine r = ⟨true, String.mk (dropCR line), none⟩ := by
  obtain ⟨k, hk⟩ : ∃ k, MaxScanTokenSize - line.length = k + 1 :=
    ⟨MaxScanTokenSize - line.length - 1, by omega⟩
  have hbuf : r.data.data.take MaxScanTokenSize = line ++ '\n' :: rest.take k := by
    rw [hd, List.take_append_eq_append_take, List.take_of_length_le (Nat.le_of_lt hlen), hk]
    rfl
  have hmem : '\n' ∈ r.data.data.take MaxScanTokenSize := by
    rw [hbuf]
    simp
  unfold scanLine
  simp only [if_pos hmem]
  rw [hbuf, takeWhile_upto_newline line _ hnl]

theorem scanLine_unterminated (r : Stream) (hnl : '\n' ∉ r.data.data)
    (hlen : r.data.data.length < MaxScanTokenSize) (hne : r.data.data ≠ []) :
    scanLine r = ⟨true, String.mk (dropCR r.data.data), none⟩ := by
  have hbuf : r.data.data.take MaxScanTokenSize = r.data.data :=
    List.take_of_length_le (Nat.le_of_lt hlen)
  unfold scanLine
  rw [hbuf]
  simp only [if_neg hnl, if_neg (Nat.not_le_of_lt hlen), if_neg hne]

theorem parseEvents_serf_scans_once (ext : Ext) (w : World)
    (hm : w.env "SERF_USER_EVENT" ≠ "") :
    (callsSince w (parseEvents ext w).2).count Call.stdinScan = 1 := by
  rw [parseEvents_serf ext w hm, callsSince_append w _ [Call.stdinScan] rfl]
  rfl

/-- C8 as stated fails: in Mode A, on a standard input whose first line is
`MaxScanTokenSize` bytes followed by a newline, `parseEvents` returns the empty
payload and the error "bufio.Scanner: token too long" instead of the line. -/
theorem parseEvents_serf_long_line_counterexample :
    (parseEvents sampleExt (sampleWorld serfEnv
        ⟨String.mk (List.replicate MaxScanTokenSize 'a' ++ ['\n']), none⟩)).1
      = ("", some "bufio.Scanner: token too long") := by
  have hm : (sampleWorld serfEnv
      ⟨String.mk (List.replicate MaxScanTokenSize 'a' ++ ['\n']), none⟩).env
        "SERF_USER_EVENT" ≠ "" := by decide
  have hs : scanLine (sampleWorld serfEnv
      ⟨String.mk (List.replicate MaxScanTokenSize 'a' ++ ['\n']), none⟩).stdin
      = ⟨false, "", some "bufio.Scanner: token too long"⟩ := by
    apply scanLine_too_long
    · show '\n' ∉ (List.replicate MaxScanTokenSize 'a' ++ ['\n']).take MaxScanTokenSize
      rw [List.take_left' (List.length_replicate _ _)]
      intro hmem
      exact absurd (List.eq_of_mem_replicate hmem) (by decide)
    · show MaxScanTokenSize ≤ (List.replicate MaxScanTokenSize 'a' ++ ['\n']).length
      rw [List.length_append, List.length_replicate]
      exact Nat.le_add_right _ _
  rw [parseEvents_serf _ _ hm, hs]
  rfl

/-- C8, amended: in Mode A, when the first line of standard input (the bytes
before the first newline, or all of a non-empty input that has no newline) is
shorter than `MaxScanTokenSize` bytes, `parseEvents` scans once and returns
that line, less one trailing carriage return, with a nil error; it returns the
line unchanged when the line does not end in a carriage return.  What follows
the first newline and how the input ends do not affect the result. -/
theorem parseEvents_serf_first_line (ext : Ext) (w : World) (line rest : String)
    (hm : w.env "SERF_USER_EVENT" ≠ "") (hnl : '\n' ∉ line.data)
    (hlen : line.length < MaxScanTokenSize)
    (hin : w.stdin.data = line ++ "\n" ++ rest ∨ (w.stdin.data = line ∧ line ≠ "")) :
    (parseEvents ext w).1 = (String.mk (dropCR line.data), none)
      ∧ (line.data.getLast? ≠ some '\r' → (parseEvents ext w).1 = (line, none))
      ∧ (callsSince w (parseEvents ext w).2).count Call.stdinScan = 1 := by
  have hs : scanLine w.stdin = ⟨true, String.mk (dropCR line.data), none⟩ := by
    rcases hin with hd | ⟨hd, hne⟩
    · apply scanLine_terminated w.stdin line.data rest.data hnl hlen
      rw [hd]
      simp [String.data_append]
    · have hd1 : w.stdin.data.data = line.data := by rw [hd]
      have h := scanLine_unterminated w.stdin (by rw [hd1]; exact hnl)
        (by rw [hd1]; exact hlen)
        (by
          rw [hd1]
          intro hnil
          apply hne
          cases line
          simp_all)
      rw [h, hd1]
  have hres : (parseEvents ext w).1 = (String.mk (dropCR line.data), none) := by
    rw [parseEvents_serf ext w hm, hs]
    rfl
  refine ⟨hres, ?_, parseEvents_serf_scans_once ext w hm⟩
  intro hcr
  rw [hres]
  unfold dropCR
  rw [if_neg hcr]

theorem parseEvents_serf_first_line_witness :
    (parseEvents sampleExt (sampleWorld serfEnv ⟨"v42\nv43\n", some "read error"⟩)).1
        = ("v42", none)
      ∧ (callsSince (sampleWorld serfEnv ⟨"v42\nv43\n", some "read error"⟩)
          (parseEvents sampleExt
            (sampleWorld serfEnv ⟨"v42\nv43\n", some "read error"⟩)).2).count
            Call.stdinScan = 1 :=
  have h := parseEvents_serf_first_line sampleExt
    (sampleWorld serfEnv ⟨"v42\nv43\n", some "read error"⟩) "v42" "v43\n"
    (by decide) (by decide) (by decide) (Or.inl rfl)
  ⟨h.2.1 (by decide), h.2.2⟩

/-! ## The log sink, and steps that invoke no hook -/

theorem concatLines_append (xs ys : List String) :
    concatLines (xs ++ ys) = concatLines xs ++ concatLines ys := by
  induction xs with
  | nil => simp [concatLines]
  | cons x rest ih =>
    show x ++ concatLines (rest ++ ys) = (x ++ concatLines rest) ++ concatLines ys
    rw [ih, String.append_assoc]

theorem concatLines_singleton (l : String) : concatLines [l] = l := by
  show l ++ "" = l
  simp

theorem Step.refl (w : World) : Step w w :=
  ⟨⟨[], by simp, by simp⟩, rfl, [], by simp, fun h => ⟨h, by simp [concatLines]⟩⟩

theorem Step.trans {w w1 w2 : World} (h1 : Step w w1) (h2 : Step w1 w2) : Step w w2 := by
  obtain ⟨⟨xs, hxs, hxp⟩, hc1, ls, hls, hb1⟩ := h1
  obtain ⟨⟨ys, hys, hyp⟩, hc2, ms, hms, hb2⟩ := h2
  refine ⟨⟨xs ++ ys, by rw [hys, hxs, List.append_assoc], ?_⟩, hc2.trans hc1, ls ++ ms,
    by rw [hms, hls, List.append_assoc], ?_⟩
  · intro c hc h
    rcases List.mem_append.mp hc with hm | hm
    · exact hxp c hm h
    · exact hyp c hm h
  · intro hw
    obtain ⟨hw1, hbuf1⟩ := hb1 hw
    obtain ⟨hw2, hbuf2⟩ := hb2 hw1
    exact ⟨hw2, by rw [hbuf2, hbuf1, concatLines_append, String.append_assoc]⟩

theorem step_logOutput (s : String) (w : World) : Step w (logOutput s w) := by
  refine ⟨⟨[], by simp [logOutput], by simp⟩, rfl,
    [w.clock w.emitted.length ++ s ++ (if s.data.getLast? = some '\n' then "" else "\n")],
    rfl, ?_⟩
  intro hw
  refine ⟨hw, ?_⟩
  rw [concatLines_singleton]
  show (if w.logToBuffer = true then _ else _) = _
  rw [if_pos hw]

theorem step_logPrintln (args : List String) (w : World) : Step w (logPrintln args w) :=
  step_logOutput _ w

theorem step_logAll (msgs : List String) (w : World) : Step w (logAll msgs w) := by
  induction msgs generalizing w with
  | nil => exact Step.refl w
  | cons s rest ih => exact Step.trans (step_logOutput s w) (ih (logOutput s w))

theorem step_record (c : Call) (w : World) (hc : ∀ h, Call.isPipe h c = false) :
    Step w (w.record c) := by
  refine ⟨⟨[c], rfl, ?_⟩, rfl, [], by simp [World.record], fun hw => ⟨hw, ?_⟩⟩
  · intro d hd h
    simp at hd
    subst hd
    exact hc h
  · simp [World.record, concatLines]

theorem step_getS3 (ext : Ext) (u : URL) (w : World) : Step w (getS3 ext u w).2 := by
  have h1 : Step w (w.record (Call.getS3 u)) := step_record (Call.getS3 u) w (fun _ => rfl)
  have h3 : Step w (((w.record (Call.getS3 u)).record Call.s3New).record
      (Call.s3GetReader u.Host u.Path)) :=
    Step.trans (Step.trans h1 (step_record Call.s3New _ (fun _ => rfl)))
      (step_record (Call.s3GetReader u.Host u.Path) _ (fun _ => rfl))
  unfold getS3
  by_cases h : (w.record (Call.getS3 u)).AWSAuth.AccessKey = ""
      ∨ (w.record (Call.getS3 u)).AWSRegion.Name = ""
  · simp only [h, if_true]
    exact h1
  · simp only [h, if_false]
    split <;> exact h3

theorem step_getFile (ext : Ext) (u : URL) (w : World) : Step w (getFile ext u w).2 := by
  have h2 : Step w ((w.record (Call.getFile u)).record (Call.osOpen u.Path)) :=
    Step.trans (step_record (Call.getFile u) w (fun _ => rfl))
      (step_record (Call.osOpen u.Path) _ (fun _ => rfl))
  unfold getFile
  simp only []
  split <;> exact h2

theorem step_getHTTP (ext : Ext) (u : URL) (w : World) : Step w (getHTTP ext u w).2 := by
  have h2 : Step w ((w.record (Call.getHTTP u)).record (Call.httpGet u.text)) :=
    Step.trans (step_record (Call.getHTTP u) w (fun _ => rfl))
      (step_record (Call.httpGet u.text) _ (fun _ => rfl))
  unfold getHTTP
  simp only []
  split <;> exact h2

theorem step_getURL (ext : Ext) (urlStr : String) (w : World) :
    Step w (getURL ext urlStr w).2 := by
  have h0 : Step w (logPrintln ["loading URL", urlStr] w) := step_logPrintln _ w
  unfold getURL
  simp only []
  split
  · exact h0
  · split
    · exact Step.trans h0 (step_getS3 ext _ _)
    · split
      · exact Step.trans h0 (step_getHTTP ext _ _)
      · split
        · exact Step.trans h0 (step_getFile ext _ _)
        · exact h0

theorem step_getManifest (ext : Ext) (manifestURL : String) (w : World) :
    Step w (getManifest ext manifestURL w).2 := by
  have h0 := step_getURL ext manifestURL w
  unfold getManifest
  split
  · rename_i err w1 heq
    rw [heq] at h0
    exact h0
  · rename_i rc w1 heq
    rw [heq] at h0
    exact Step.trans h0 (Step.trans (step_record (Call.ParseManifest rc.data) _ (fun _ => rfl))
      (step_logAll _ _))

theorem step_parseEvents (ext : Ext) (w : World) : Step w (parseEvents ext w).2 := by
  have h0 : Step w (logPrintln ["Waiting for events from STDIN..."] w) := step_logPrintln _ w
  unfold parseEvents
  simp only []
  split
  · have h1 := Step.trans h0 (Step.trans (step_logPrintln
      ["Reading Serf user event:",
        (logPrintln ["Waiting for events from STDIN..."] w).env "SERF_USER_EVENT"] _)
      (step_record Call.stdinScan _ (fun _ => rfl)))
    split <;> exact h1
  · have h1 := Step.trans h0 (Step.trans (step_logPrintln ["Reading Consul event"] _)
      (Step.trans (step_record Call.ParseConsulEvents _ (fun _ => rfl))
        (step_logAll (ext.ParseConsulEvents w.stdin).logs _)))
    split
    · exact h1
    · split <;> exact h1

theorem step_setAWS (a : Auth) (r : Region) (w : World) :
    Step w { w with AWSAuth := a, AWSRegion := r } :=
  ⟨⟨[], by simp, by simp⟩, rfl, [], by simp, fun h => ⟨h, by simp [concatLines]⟩⟩

theorem step_Run_config (ext : Ext) (w : World) :
    Step (logPrintln ["Starting up stretcher agent"] w) (Run.config ext w).2 := by
  unfold Run.config
  simp only []
  split
  · have h1 := step_record (Call.LoadAWSConfigFile
        ((logPrintln ["Starting up stretcher agent"] w).env "AWS_CONFIG_FILE")
        (if (logPrintln ["Starting up stretcher agent"] w).env "AWS_DEFAULT_PROFILE" = ""
          then ext.AWSDefaultProfileName
          else (logPrintln ["Starting up stretcher agent"] w).env "AWS_DEFAULT_PROFILE"))
        (logPrintln ["Starting up stretcher agent"] w) (fun _ => rfl)
    split <;> exact Step.trans h1 (Step.trans (step_setAWS _ _ _) (step_logAll _ _))
  · exact Step.refl _

theorem step_Run_load (ext : Ext) (w : World) :
    Step (logPrintln ["Starting up stretcher agent"] w) (Run.load ext w).2 := by
  have h0 := step_Run_config ext w
  unfold Run.load
  split
  · rename_i err w1 heq
    rw [heq] at h0
    exact h0
  · rename_i w1 heq
    rw [heq] at h0
    have h1 := step_parseEvents ext w1
    split
    · rename_i x err w2 heq2
      rw [heq2] at h1
      exact Step.trans h0 h1
    · rename_i payload w2 heq2
      rw [heq2] at h1
      have h2 := step_getManifest ext payload (logPrintln ["Loading manifest:", payload] w2)
      have h3 := Step.trans (Step.trans h0 h1) (step_logPrintln ["Loading manifest:", payload] w2)
      simp only []
      split
      · rename_i err w3 heq3
        rw [heq3] at h2
        exact Step.trans h3 h2
      · rename_i m w3 heq3
        rw [heq3] at h2
        exact Step.trans (Step.trans h3 h2) (step_logOutput _ _)

/-! ## Loading the manifest -/

/-- C4: when the fetch succeeds and the stream then fails with a read error
after delivering some bytes, `getManifest` hands the bytes read so far to
`ParseManifest` and returns the decoder's result on them; the read error is
dropped. -/
theorem getManifest_discards_read_error (ext : Ext) (manifestURL : String) (w : World)
    (rc : Stream) (e : String) (hf : (getURL ext manifestURL w).1 = Except.ok rc)
    (he : rc.err = some e) :
    rc.err = some e
      ∧ (getManifest ext manifestURL w).1 = (ext.ParseManifest rc.data).result
      ∧ Call.ParseManifest rc.data ∈ callsSince w (getManifest ext manifestURL w).2 := by
  refine ⟨he, ?_⟩
  have hstep := step_getURL ext manifestURL w
  unfold getManifest
  split
  · rename_i err w1 heq
    rw [heq] at hf
    cases hf
  · rename_i rc1 w1 heq
    rw [heq] at hf hstep
    cases hf
    obtain ⟨⟨xs, hxs, _⟩, _⟩ := hstep
    refine ⟨rfl, ?_⟩
    have hc : callsSince w (logAll (ext.ParseManifest rc.data).logs
        (w1.record (Call.ParseManifest rc.data))) = xs ++ [Call.ParseManifest rc.data] := by
      apply callsSince_append
      rw [logAll_calls]
      show w1.calls ++ [Call.ParseManifest rc.data] = _
      rw [hxs, List.append_assoc]
    show Call.ParseManifest rc.data ∈ callsSince w (logAll (ext.ParseManifest rc.data).logs
        (w1.record (Call.ParseManifest rc.data)))
    rw [hc]
    simp

theorem getManifest_discards_read_error_witness :
    (⟨"", some "read /tmp: is a directory"⟩ : Stream).err = some "read /tmp: is a directory"
      ∧ (getManifest sampleExt "file:///tmp" (sampleWorld consulEnv ⟨"", none⟩)).1
          = Except.ok ⟨"", ⟨⟨["ok"]⟩, ⟨["ng"]⟩⟩⟩
      ∧ Call.ParseManifest ""
          ∈ callsSince (sampleWorld consulEnv ⟨"", none⟩)
              (getManifest sampleExt "file:///tmp" (sampleWorld consulEnv ⟨"", none⟩)).2 :=
  getManifest_discards_read_error sampleExt "file:///tmp" (sampleWorld consulEnv ⟨"", none⟩)
    ⟨"", some "read /tmp: is a directory"⟩ "read /tmp: is a directory" rfl rfl

/-! ## The deploy orchestrator -/

theorem Sprintln_two (a b : String) : Sprintln [a, b] = a ++ " " ++ b ++ "\n" := rfl

theorem logPrintln_emitted (args : List String) (w : World) :
    (logPrintln args w).emitted = w.emitted ++ [w.clock w.emitted.length ++ Sprintln args] := by
  have hnl : (Sprintln args).data.getLast? = some '\n' := by
    unfold Sprintln
    rw [String.data_append]
    exact List.getLast?_append_cons _ _ _ |>.trans (by simp)
  show w.emitted ++ [w.clock w.emitted.length ++ Sprintln args ++
      (if (Sprintln args).data.getLast? = some '\n' then "" else "\n")] = _
  rw [if_pos hnl, String.append_empty]

theorem logAll_emitted (msgs : List String) (w : World) :
    ∃ ls, (logAll msgs w).emitted = w.emitted ++ ls ∧ ls.length = msgs.length := by
  induction msgs generalizing w with
  | nil => exact ⟨[], by simp [logAll], rfl⟩
  | cons s rest ih =>
    obtain ⟨ls, hls, hlen⟩ := ih (logOutput s w)
    refine ⟨(logOutput s w).emitted.drop w.emitted.length ++ ls, ?_, ?_⟩
    · show (logAll rest (logOutput s w)).emitted = _
      rw [hls]
      simp [logOutput]
    · simp [logOutput, hlen]

theorem invokeHook_calls (ext : Ext) (hook : Hook) (cmds : CommandLines) (w : World) :
    (invokeHook ext hook cmds w).calls = w.calls ++ [Call.InvokePipe hook w.LogBuffer] := by
  unfold invokeHook
  simp only []
  rw [logAll_calls]
  rfl

theorem invokeHook_emitted (ext : Ext) (hook : Hook) (cmds : CommandLines) (w : World) :
    ∃ ls, (invokeHook ext hook cmds w).emitted = w.emitted ++ ls
      ∧ ls.length = (ext.InvokePipe cmds w.LogBuffer).logs.length := by
  unfold invokeHook
  simp only []
  exact logAll_emitted _ _

theorem Run_eq_deploy (ext : Ext) (w w1 : World) (m : Manifest)
    (hl : Run.load ext w = (Except.ok m, w1)) : Run ext w = Run.deploy ext m w1 := by
  unfold Run
  rw [hl]

theorem Run_deploy_failure_eq (ext : Ext) (m : Manifest) (w1 : World) (e : String)
    (hd : (ext.Deploy m).err = some e) :
    Run.deploy ext m w1
      = (some ("Deploy manifest failed: " ++ e),
          invokeHook ext Hook.Failure m.Commands.Failure
            (logPrintln ["Deploy manifest failed:", e]
              (logAll (ext.Deploy m).logs (w1.record (Call.Deploy m))))) := by
  unfold Run.deploy
  simp only [hd]

theorem Run_deploy_success_eq (ext : Ext) (m : Manifest) (w1 : World)
    (hd : (ext.Deploy m).err = none) :
    Run.deploy ext m w1
      = (none,
          invokeHook ext Hook.Success m.Commands.Success
            (logPrintln ["Deploy manifest succeeded."]
              (logAll (ext.Deploy m).logs (w1.record (Call.Deploy m))))) := by
  unfold Run.deploy
  simp only [hd]

theorem step_deployed (ext : Ext) (w w1 : World) (m : Manifest)
    (hl : Run.load ext w = (Except.ok m, w1)) :
    Step (logPrintln ["Starting up stretcher agent"] w)
      (logAll (ext.Deploy m).logs (w1.record (Call.Deploy m))) := by
  have h := step_Run_load ext w
  rw [hl] at h
  exact Step.trans h (Step.trans (step_record (Call.Deploy m) w1 (fun _ => rfl))
    (step_logAll _ _))

theorem hook_trace (ext : Ext) (hook : Hook) (cmds : CommandLines) (w w2 : World)
    (hs : Step w w2) :
    ∃ xs, (∀ c ∈ xs, ∀ h, Call.isPipe h c = false)
      ∧ callsSince w (invokeHook ext hook cmds w2)
          = xs ++ [Call.InvokePipe hook w2.LogBuffer] := by
  obtain ⟨⟨xs, hxs, hxp⟩, _⟩ := hs
  refine ⟨xs, hxp, callsSince_append _ _ _ ?_⟩
  rw [invokeHook_calls, hxs, List.append_assoc]

theorem countP_hook_trace (xs : List Call) (hook h : Hook) (input : String)
    (hxp : ∀ c ∈ xs, ∀ h, Call.isPipe h c = false) :
    (xs ++ [Call.InvokePipe hook input]).countP (Call.isPipe h)
      = if hook = h then 1 else 0 := by
  have h0 : xs.countP (Call.isPipe h) = 0 := by
    rw [List.countP_eq_zero]
    intro c hc
    rw [hxp c hc h]
    simp
  rw [List.countP_append, h0]
  by_cases hh : hook = h <;> simp [List.countP_cons, Call.isPipe, hh]

/-- C1: when `Run` has loaded manifest `m` and `m.Deploy()` returns error `e`,
`Run` returns the error "Deploy manifest failed: " followed by `e` (so the
message carries the deploy error), and the calls it has made contain exactly
one `InvokePipe` on the Failure pipeline and none on the Success pipeline; this
holds for every behaviour of `InvokePipe`. -/
theorem Run_deploy_failure (ext : Ext) (w w1 : World) (m : Manifest) (e : String)
    (hl : Run.load ext w = (Except.ok m, w1)) (hd : (ext.Deploy m).err = some e) :
    (Run ext w).1 = some ("Deploy manifest failed: " ++ e)
      ∧ containsText ("Deploy manifest failed: " ++ e) e
      ∧ (callsSince w (Run ext w).2).countP (Call.isPipe Hook.Failure) = 1
      ∧ (callsSince w (Run ext w).2).countP (Call.isPipe Hook.Success) = 0 := by
  have hs : Step w (logPrintln ["Deploy manifest failed:", e]
      (logAll (ext.Deploy m).logs (w1.record (Call.Deploy m)))) :=
    Step.trans (step_logPrintln _ w)
      (Step.trans (step_deployed ext w w1 m hl) (step_logPrintln _ _))
  obtain ⟨xs, hxp, htr⟩ := hook_trace ext Hook.Failure m.Commands.Failure w _ hs
  rw [Run_eq_deploy ext w w1 m hl, Run_deploy_failure_eq ext m w1 e hd]
  refine ⟨rfl, ?_, ?_, ?_⟩
  · show e.data <:+: ("Deploy manifest failed: " ++ e).data
    rw [String.data_append]
    exact (List.suffix_append _ _).isInfix
  · show (callsSince w (invokeHook ext Hook.Failure m.Commands.Failure _)).countP _ = 1
    rw [htr, countP_hook_trace xs _ _ _ hxp]
    rfl
  · show (callsSince w (invokeHook ext Hook.Failure m.Commands.Failure _)).countP _ = 0
    rw [htr, countP_hook_trace xs _ _ _ hxp]
    rfl

/-- C2: when `Run` has loaded manifest `m` and `m.Deploy()` returns no error,
`Run` returns nil, and the calls it has made contain exactly one `InvokePipe` on
the Success pipeline and none on the Failure pipeline; this holds for every
behaviour of `InvokePipe`, a failing one included. -/
theorem Run_deploy_success (ext : Ext) (w w1 : World) (m : Manifest)
    (hl : Run.load ext w = (Except.ok m, w1)) (hd : (ext.Deploy m).err = none) :
    (Run ext w).1 = none
      ∧ (callsSince w (Run ext w).2).countP (Call.isPipe Hook.Success) = 1
      ∧ (callsSince w (Run ext w).2).countP (Call.isPipe Hook.Failure) = 0 := by
  have hs : Step w (logPrintln ["Deploy manifest succeeded."]
      (logAll (ext.Deploy m).logs (w1.record (Call.Deploy m)))) :=
    Step.trans (step_logPrintln _ w)
      (Step.trans (step_deployed ext w w1 m hl) (step_logPrintln _ _))
  obtain ⟨xs, hxp, htr⟩ := hook_trace ext Hook.Success m.Commands.Success w _ hs
  rw [Run_eq_deploy ext w w1 m hl, Run_deploy_success_eq ext m w1 hd]
  refine ⟨rfl, ?_, ?_⟩
  · show (callsSince w (invokeHook ext Hook.Success m.Commands.Success _)).countP _ = 1
    rw [htr, countP_hook_trace xs _ _ _ hxp]
    rfl
  · show (callsSince w (invokeHook ext Hook.Success m.Commands.Success _)).countP _ = 0
    rw [htr, countP_hook_trace xs _ _ _ hxp]
    rfl

theorem Run_deploy_failure_witness :
    (Run sampleExt (sampleWorld serfEnv ⟨"file:///x\n", none⟩)).1
        = some ("Deploy manifest failed: " ++ "exit status 1")
      ∧ containsText ("Deploy manifest failed: " ++ "exit status 1") "exit status 1"
      ∧ (callsSince (sampleWorld serfEnv ⟨"file:///x\n", none⟩)
          (Run sampleExt (sampleWorld serfEnv ⟨"file:///x\n", none⟩)).2).countP
            (Call.isPipe Hook.Failure) = 1
      ∧ (callsSince (sampleWorld serfEnv ⟨"file:///x\n", none⟩)
          (Run sampleExt (sampleWorld serfEnv ⟨"file:///x\n", none⟩)).2).countP
            (Call.isPipe Hook.Success) = 0 :=
  Run_deploy_failure sampleExt (sampleWorld serfEnv ⟨"file:///x\n", none⟩)
    (Run.load sampleExt (sampleWorld serfEnv ⟨"file:///x\n", none⟩)).2
    ⟨"bad", ⟨⟨["ok"]⟩, ⟨["ng"]⟩⟩⟩ "exit status 1" rfl rfl

theorem Run_deploy_success_witness :
    (Run sampleExt (sampleWorld serfEnv ⟨"http://host/m\n", none⟩)).1 = none
      ∧ (callsSince (sampleWorld serfEnv ⟨"http://host/m\n", none⟩)
          (Run sampleExt (sampleWorld serfEnv ⟨"http://host/m\n", none⟩)).2).countP
            (Call.isPipe Hook.Success) = 1
      ∧ (callsSince (sampleWorld serfEnv ⟨"http://host/m\n", none⟩)
          (Run sampleExt (sampleWorld serfEnv ⟨"http://host/m\n", none⟩)).2).countP
            (Call.isPipe Hook.Failure) = 0 :=
  Run_deploy_success sampleExt (sampleWorld serfEnv ⟨"http://host/m\n", none⟩)
    (Run.load sampleExt (sampleWorld serfEnv ⟨"http://host/m\n", none⟩)).2
    ⟨"good", ⟨⟨["ok"]⟩, ⟨["ng"]⟩⟩⟩ rfl rfl

/-- C9: in a process that starts with an empty `LogBuffer` and no line
logged, calls `Init` and then `Run`, when `Run` has loaded manifest `m` and
`m.Deploy()` returns error `e`, the one `InvokePipe` call on the Failure
pipeline receives the concatenation of `lines`, where `lines` are exactly the
log lines emitted before that call (everything emitted later is logged by the
pipeline itself); the first of them is the "Starting up stretcher agent" line
and the last is the "Deploy manifest failed:" line for `e`. -/
theorem Run_failure_pipe_input (ext : Ext) (w w1 : World) (m : Manifest) (e : String)
    (hb : w.LogBuffer = "") (hem : w.emitted = [])
    (hl : Run.load ext (Init w) = (Except.ok m, w1)) (hd : (ext.Deploy m).err = some e) :
    ∃ lines after,
      (callsSince (Init w) (Run ext (Init w)).2).filter (Call.isPipe Hook.Failure)
          = [Call.InvokePipe Hook.Failure (concatLines lines)]
        ∧ (Run ext (Init w)).2.emitted = lines ++ after
        ∧ after.length = (ext.InvokePipe m.Commands.Failure (concatLines lines)).logs.length
        ∧ lines.head? = some (w.clock 0 ++ "Starting up stretcher agent\n")
        ∧ lines.getLast?
            = some (w.clock (lines.length - 1) ++ "Deploy manifest failed: " ++ e ++ "\n") := by
  have hdep := step_deployed ext (Init w) w1 m hl
  have hs1 : Step (logPrintln ["Starting up stretcher agent"] (Init w))
      (logPrintln ["Deploy manifest failed:", e]
        (logAll (ext.Deploy m).logs (w1.record (Call.Deploy m)))) :=
    Step.trans hdep (step_logPrintln _ _)
  have hs : Step (Init w) (logPrintln ["Deploy manifest failed:", e]
      (logAll (ext.Deploy m).logs (w1.record (Call.Deploy m)))) :=
    Step.trans (step_logPrintln _ (Init w)) hs1
  obtain ⟨xs, hxp, htr⟩ := hook_trace ext Hook.Failure m.Commands.Failure (Init w) _ hs
  obtain ⟨after, haft, hlen⟩ := invokeHook_emitted ext Hook.Failure m.Commands.Failure
    (logPrintln ["Deploy manifest failed:", e]
      (logAll (ext.Deploy m).logs (w1.record (Call.Deploy m))))
  have hbuf : (logPrintln ["Deploy manifest failed:", e]
      (logAll (ext.Deploy m).logs (w1.record (Call.Deploy m)))).LogBuffer
      = concatLines (logPrintln ["Deploy manifest failed:", e]
          (logAll (ext.Deploy m).logs (w1.record (Call.Deploy m)))).emitted := by
    obtain ⟨_, _, ls, hls, hlb⟩ := hs
    obtain ⟨_, hlb2⟩ := hlb rfl
    rw [hlb2, hls]
    show w.LogBuffer ++ concatLines ls = concatLines (w.emitted ++ ls)
    rw [hb, hem]
    simp
  have hhead : (logPrintln ["Deploy manifest failed:", e]
      (logAll (ext.Deploy m).logs (w1.record (Call.Deploy m)))).emitted.head?
      = some (w.clock 0 ++ "Starting up stretcher agent\n") := by
    obtain ⟨_, _, ls, hls, _⟩ := hs1
    rw [hls, logPrintln_emitted]
    show (w.emitted ++ [w.clock w.emitted.length ++ Sprintln ["Starting up stretcher agent"]]
      ++ ls).head? = _
    rw [hem]
    rfl
  have hclock : (logAll (ext.Deploy m).logs (w1.record (Call.Deploy m))).clock = w.clock :=
    hdep.2.1
  have hlast : (logPrintln ["Deploy manifest failed:", e]
      (logAll (ext.Deploy m).logs (w1.record (Call.Deploy m)))).emitted.getLast?
      = some (w.clock ((logPrintln ["Deploy manifest failed:", e]
          (logAll (ext.Deploy m).logs (w1.record (Call.Deploy m)))).emitted.length - 1)
          ++ "Deploy manifest failed: " ++ e ++ "\n") := by
    rw [logPrintln_emitted, List.getLast?_append_cons, hclock, Sprintln_two]
    simp only [List.getLast?_singleton, List.length_append, List.length_singleton,
      Nat.add_sub_cancel]
    have hsp : "Deploy manifest failed:" ++ " " = "Deploy manifest failed: " := by decide
    rw [← hsp]
    simp only [String.append_assoc]
  refine ⟨_, after, ?_, ?_, ?_, hhead, hlast⟩
  · rw [Run_eq_deploy ext (Init w) w1 m hl, Run_deploy_failure_eq ext m w1 e hd]
    show (callsSince (Init w) (invokeHook ext Hook.Failure m.Commands.Failure _)).filter _ = _
    rw [htr, List.filter_append, ← hbuf]
    have h0 : xs.filter (Call.isPipe Hook.Failure) = [] := by
      rw [List.filter_eq_nil_iff]
      intro c hc
      rw [hxp c hc Hook.Failure]
      simp
    rw [h0]
    rfl
  · rw [Run_eq_deploy ext (Init w) w1 m hl, Run_deploy_failure_eq ext m w1 e hd]
    exact haft
  · rw [← hbuf]
    exact hlen

theorem Run_failure_pipe_input_witness :
    ∃ lines after,
      (callsSince (Init (sampleWorld serfEnv ⟨"file:///x\n", none⟩))
          (Run sampleExt (Init (sampleWorld serfEnv ⟨"file:///x\n", none⟩))).2).filter
            (Call.isPipe Hook.Failure)
          = [Call.InvokePipe Hook.Failure (concatLines lines)]
        ∧ (Run sampleExt (Init (sampleWorld serfEnv ⟨"file:///x\n", none⟩))).2.emitted
            = lines ++ after
        ∧ after.length
            = (sampleExt.InvokePipe (⟨["ng"]⟩ : CommandLines) (concatLines lines)).logs.length
        ∧ lines.head? = some ("2015/01/01 00:00:00 " ++ "Starting up stretcher agent\n")
        ∧ lines.getLast?
            = some ("2015/01/01 00:00:00 " ++ "Deploy manifest failed: " ++ "exit status 1"
                ++ "\n") :=
  Run_failure_pipe_input sampleExt (sampleWorld serfEnv ⟨"file:///x\n", none⟩)
    (Run.load sampleExt (Init (sampleWorld serfEnv ⟨"file:///x\n", none⟩))).2
    ⟨"bad", ⟨⟨["ok"]⟩, ⟨["ng"]⟩⟩⟩ "exit status 1" rfl rfl rfl rfl

end Stretcher
